import Mathlib

/-!
Verification of the `TwoWayOrderedDict` bidirectional ordered dictionary and the
`get_time` helper from `youtube_dl_gui/utils.py`.

The dictionary stores its state as an insertion-ordered list of `(key, value)`
pairs (`self._items`).  We embed the state as `List (α × α)` for an arbitrary
element type `α` with decidable equality (Python compares keys and values with
`==` across both positions of every pair, so key and value share one type).
Python's `None` return of `_get_value` is modelled by `Option α`; a raised
`KeyError` is modelled by the `Except` error channel carrying a `KeyError α`
value (`notFound key` for `KeyError(key)`, `empty` for the message-only
`KeyError` of `popitem`).  The `RANDOM_OBJECT` sentinel default of `pop` is
modelled by an `Option α` argument where `none` means "no default supplied".
-/

namespace YoutubeDLGui

/-- Errors raised by the dictionary: `KeyError(key)` from `_find_item`, and the
message-only `KeyError('popitem(): dictionary is empty')` from `popitem`. -/
inductive KeyError (α : Type _) where
  | notFound : α → KeyError α
  | empty : KeyError α
deriving DecidableEq, Repr

namespace TwoWayOrderedDict

variable {α : Type _} [DecidableEq α]

/-- The collision test of `__setitem__`:
`key == item[0] or key == item[1] or value == item[0] or value == item[1]`. -/
def conflicts (key value : α) (item : α × α) : Prop :=
  key = item.1 ∨ key = item.2 ∨ value = item.1 ∨ value = item.2

instance (key value : α) (item : α × α) : Decidable (conflicts key value item) :=
  inferInstanceAs (Decidable (key = item.1 ∨ key = item.2 ∨ value = item.1 ∨ value = item.2))

/-- The `while index < len(self._items)` loop of `__setitem__`: at the current
`index`, a pair matching the collision test is removed with
`self._items.remove(item)` (Python removes the first occurrence equal to
`item`, embedded as `List.erase`), otherwise `index` advances. -/
def setitemLoop (key value : α) (index : Nat) (items : List (α × α)) : List (α × α) :=
  if h : index < items.length then
    if conflicts key value items[index] then
      setitemLoop key value index (items.erase items[index])
    else
      setitemLoop key value (index + 1) items
  else
    items
termination_by items.length - index
decreasing_by
  · have hm : items[index] ∈ items := items.getElem_mem h
    have := List.length_erase_of_mem hm
    omega
  · omega

/-- `__setitem__(key, value)`: run the eviction loop over the whole pair list,
then `self._items.append((key, value))`. -/
def setitem (key value : α) (items : List (α × α)) : List (α × α) :=
  setitemLoop key value 0 items ++ [(key, value)]

/-- `_find_item(key)`: scan the pairs in order and return the first whose
first or second component equals `key`; raise `KeyError(key)` otherwise. -/
def findItem (key : α) : List (α × α) → Except (KeyError α) (α × α)
  | [] => .error (.notFound key)
  | item :: rest =>
    if key = item.1 ∨ key = item.2 then .ok item else findItem key rest

/-- `_get_value(key, item)`: the key:value or value:key relationship; returns
Python `None` (here `none`) when neither component matches. -/
def getValue (key : α) (item : α × α) : Option α :=
  if key = item.1 then some item.2
  else if key = item.2 then some item.1
  else none

/-- `__getitem__(key)`: `_find_item` then `_get_value`; a `KeyError` from
`_find_item` is re-raised unchanged. -/
def getitem (key : α) (items : List (α × α)) : Except (KeyError α) (Option α) :=
  match findItem key items with
  | .error e => .error e
  | .ok item => .ok (getValue key item)

/-- `__delitem__(key)`: `_find_item` then `self._items.remove(item)`; a
`KeyError` is re-raised unchanged. -/
def delitem (key : α) (items : List (α × α)) : Except (KeyError α) (List (α × α)) :=
  match findItem key items with
  | .error e => .error e
  | .ok item => .ok (items.erase item)

/-- `__len__`. -/
def len (items : List (α × α)) : Nat :=
  items.length

/-- `__contains__(item)`: true iff `_find_item` succeeds. -/
def contains (key : α) (items : List (α × α)) : Bool :=
  match findItem key items with
  | .error _ => false
  | .ok _ => true

/-- `get(key, default=None)`: `__getitem__`, substituting `default` for a
`KeyError`. -/
def get (key : α) (default : Option α) (items : List (α × α)) : Option α :=
  match getitem key items with
  | .error _ => default
  | .ok v => v

/-- `pop(key, default=RANDOM_OBJECT)`: remove the found pair and return its
paired value; on `KeyError`, re-raise when no default was supplied
(`default == RANDOM_OBJECT`), else return the supplied default with the pair
list untouched.  Returns the result value together with the new pair list. -/
def pop (key : α) (default : Option α) (items : List (α × α)) :
    Except (KeyError α) (Option α × List (α × α)) :=
  match findItem key items with
  | .ok item => .ok (getValue key item, items.erase item)
  | .error e =>
    match default with
    | none => .error e
    | some d => .ok (some d, items)

/-- `popitem()`: raise the message-only `KeyError` when the list is empty,
else `self._items.pop()` — remove and return the last pair. -/
def popitem (items : List (α × α)) : Except (KeyError α) ((α × α) × List (α × α)) :=
  match items.getLast? with
  | none => .error .empty
  | some last => .ok (last, items.dropLast)

/-- `setdefault(key, default=None)`: return `__getitem__(key)` if it succeeds,
else `__setitem__(key, default)` and return `default`.  Returns the result
value together with the new pair list. -/
def setdefault (key default : α) (items : List (α × α)) : Option α × List (α × α) :=
  match getitem key items with
  | .ok v => (v, items)
  | .error _ => (some default, setitem key default items)

/-- `_load_into_dict(args, kwargs)`: every positional argument is an iterable
of `(key, value)` pairs (a `dict` argument is taken via `item.items()`, so it
too is a pair sequence), loaded in order via `__setitem__`; then the keyword
pairs likewise. -/
def loadIntoDict (args : List (List (α × α))) (kwargs : List (α × α))
    (items : List (α × α)) : List (α × α) :=
  let afterArgs := args.foldl
    (fun acc arg => arg.foldl (fun acc2 kv => setitem kv.1 kv.2 acc2) acc) items
  kwargs.foldl (fun acc kv => setitem kv.1 kv.2 acc) afterArgs

/-- `__init__(*args, **kwargs)`: start from an empty `_items` list and load. -/
def init (args : List (List (α × α))) (kwargs : List (α × α)) : List (α × α) :=
  loadIntoDict args kwargs []

/-- `update(*args, **kwargs)`: load into the existing structure. -/
def update (args : List (List (α × α))) (kwargs : List (α × α))
    (items : List (α × α)) : List (α × α) :=
  loadIntoDict args kwargs items

/-- `items()`: the pair list itself. -/
def itemsList (items : List (α × α)) : List (α × α) :=
  items

/-- `keys()`: list of first components. -/
def keys (items : List (α × α)) : List α :=
  items.map (·.1)

/-- `values()`: list of second components. -/
def values (items : List (α × α)) : List α :=
  items.map (·.2)

/-- `copy()`: `TwoWayOrderedDict(self._items)` — a fresh structure loaded from
the current pair list. -/
def copy (items : List (α × α)) : List (α × α) :=
  init [items] []

/-- `clear()`: `del self._items[:]`. -/
def clear (_items : List (α × α)) : List (α × α) :=
  []

/-- The pairs that survive an insertion of `(key, value)`: those conflicting in
neither position. -/
def keeps (key value : α) (item : α × α) : Bool :=
  !(decide (conflicts key value item))

/-- Two pairs share no element: the spec's "no element appears in two pairs"
for a given pair of entries. -/
def disjointPair (p q : α × α) : Prop :=
  p.1 ≠ q.1 ∧ p.1 ≠ q.2 ∧ p.2 ≠ q.1 ∧ p.2 ≠ q.2

/-- The structural invariant: no element appears in two distinct pairs of the
list (in any position). -/
def Distinct (items : List (α × α)) : Prop :=
  items.Pairwise disjointPair

/-- States of `_items` reachable through the class API: the empty list of
`__init__`/`clear`, an insertion (`__setitem__`, also reached through
`setdefault`, `update`, construction), a removal of a pair
(`__delitem__`/`pop`), and the removal of the last pair (`popitem`). -/
inductive Reachable : List (α × α) → Prop where
  | empty : Reachable []
  | insert (key value : α) {items : List (α × α)} :
      Reachable items → Reachable (setitem key value items)
  | removePair (item : α × α) {items : List (α × α)} :
      Reachable items → Reachable (items.erase item)
  | removeLast {items : List (α × α)} :
      Reachable items → Reachable items.dropLast

end TwoWayOrderedDict

/-- Element type for the concrete scenarios of the spec: Python string and
integer values, distinguishable by `==` (a string never equals an int). -/
inductive Elem where
  | s : String → Elem
  | n : Int → Elem
deriving DecidableEq, Repr

/-- The result dictionary of `get_time`. -/
structure DTime where
  seconds : Nat
  minutes : Nat
  hours : Nat
  days : Nat
deriving DecidableEq, Repr

/-- `get_time(seconds)`: convert seconds to days, hours, minutes and seconds.
The Python source divides with `/` on a Python 2 int (floor division) and
truncates with `int(...)`; on non-negative integers this is `Nat` division. -/
def get_time (seconds : Nat) : DTime :=
  { days := seconds / 86400
    hours := seconds % 86400 / 3600
    minutes := seconds % 86400 % 3600 / 60
    seconds := seconds % 86400 % 3600 % 60 }

namespace TwoWayOrderedDict

variable {α : Type _} [DecidableEq α]

theorem setitemLoop_eq (key value : α) :
    ∀ (n index : Nat) (items : List (α × α)), items.length - index ≤ n →
    (∀ it ∈ items.take index, ¬ conflicts key value it) →
    setitemLoop key value index items =
      items.take index ++ (items.drop index).filter (keeps key value) := by
  intro n
  induction n with
  | zero =>
    intro index items hn _
    have hle : items.length ≤ index := by omega
    unfold setitemLoop
    rw [dif_neg (by omega)]
    rw [List.take_of_length_le hle, List.drop_eq_nil_of_le hle]
    simp
  | succ n ih =>
    intro index items hn hpre
    by_cases h : index < items.length
    · have hitem : items[index] :: items.drop (index + 1) = items.drop index :=
        List.getElem_cons_drop items index h
      have hsplit : items.take index ++ items.drop index = items := List.take_append_drop _ _
      have hlen_take : (items.take index).length = index := by
        simp [List.length_take]; omega
      unfold setitemLoop
      rw [dif_pos h]
      by_cases hc : conflicts key value items[index]
      · rw [if_pos hc]
        obtain ⟨x, hx⟩ : ∃ x, items[index] = x := ⟨_, rfl⟩
        rw [hx] at hc hitem
        rw [hx]
        have hnotmem : x ∉ items.take index := by
          intro hmem
          exact hpre _ hmem hc
        have herase : items.erase x =
            items.take index ++ items.drop (index + 1) := by
          conv_lhs => rw [← hsplit, ← hitem]
          rw [List.erase_append_right _ hnotmem, List.erase_cons_head]
        simp only [herase]
        have hlen' : (items.take index ++ items.drop (index + 1)).length - index ≤ n := by
          simp [List.length_take, List.length_drop]
          omega
        have htake' : (items.take index ++ items.drop (index + 1)).take index =
            items.take index := List.take_left' hlen_take
        have hdrop' : (items.take index ++ items.drop (index + 1)).drop index =
            items.drop (index + 1) := List.drop_left' hlen_take
        rw [ih index _ hlen' (by rw [htake']; exact hpre), htake', hdrop']
        have hfilter : (items.drop index).filter (keeps key value) =
            (items.drop (index + 1)).filter (keeps key value) := by
          rw [← hitem, List.filter_cons]
          simp [keeps, hc]
        rw [hfilter]
      · rw [if_neg hc]
        have htake1 : items.take (index + 1) = items.take index ++ [items[index]] := by
          rw [← List.take_concat_get items index h, List.concat_eq_append]
        have hpre' : ∀ it ∈ items.take (index + 1), ¬ conflicts key value it := by
          intro it hit
          rw [htake1] at hit
          rcases List.mem_append.mp hit with hl | hr
          · exact hpre _ hl
          · simp at hr
            rw [hr]
            exact hc
        rw [ih (index + 1) items (by omega) hpre', htake1, ← hitem, List.filter_cons,
          if_pos (by simp [keeps, hc]), List.append_assoc]
        rfl
    · have hle : items.length ≤ index := by omega
      unfold setitemLoop
      rw [dif_neg (by omega)]
      rw [List.take_of_length_le hle, List.drop_eq_nil_of_le hle]
      simp

/-- `__setitem__` removes exactly the conflicting pairs (preserving the order
of the rest) and appends `(key, value)` at the end. -/
theorem setitem_eq_filter (key value : α) (items : List (α × α)) :
    setitem key value items =
      items.filter (keeps key value) ++ [(key, value)] := by
  unfold setitem
  rw [setitemLoop_eq key value items.length 0 items (by omega) (by simp)]
  simp

theorem keeps_eq_true {key value : α} {it : α × α} :
    keeps key value it = true ↔ ¬ conflicts key value it := by
  simp [keeps]

theorem mem_filter_keeps {key value : α} {items : List (α × α)} {it : α × α}
    (h : it ∈ items.filter (keeps key value)) :
    key ≠ it.1 ∧ key ≠ it.2 ∧ value ≠ it.1 ∧ value ≠ it.2 := by
  have hk := List.of_mem_filter h
  rw [keeps_eq_true] at hk
  unfold conflicts at hk
  push_neg at hk
  exact hk

theorem distinct_setitem (key value : α) {items : List (α × α)} (h : Distinct items) :
    Distinct (setitem key value items) := by
  rw [setitem_eq_filter]
  unfold Distinct at *
  rw [List.pairwise_append]
  refine ⟨h.sublist (List.filter_sublist _), List.pairwise_singleton _ _, ?_⟩
  intro a ha b hb
  simp only [List.mem_singleton] at hb
  subst hb
  obtain ⟨h1, h2, h3, h4⟩ := mem_filter_keeps ha
  exact ⟨Ne.symm h1, Ne.symm h3, Ne.symm h2, Ne.symm h4⟩

/-- Every reachable `_items` list satisfies the no-shared-element invariant. -/
theorem distinct_of_reachable {items : List (α × α)} (h : Reachable items) :
    Distinct items := by
  induction h with
  | empty => exact List.Pairwise.nil
  | insert key value _ ih => exact distinct_setitem key value ih
  | removePair item _ ih => exact ih.sublist (List.erase_sublist _ _)
  | removeLast _ ih => exact ih.sublist (List.dropLast_sublist _)

theorem findItem_append_of_absent_left {key : α} {l₁ l₂ : List (α × α)}
    (h : ∀ it ∈ l₁, key ≠ it.1 ∧ key ≠ it.2) :
    findItem key (l₁ ++ l₂) = findItem key l₂ := by
  induction l₁ with
  | nil => rfl
  | cons it rest ih =>
    have hit := h it (by simp)
    rw [List.cons_append]
    simp only [findItem]
    rw [if_neg (by tauto)]
    exact ih (fun a ha => h a (by simp [ha]))

/-- `_find_item` raises `KeyError(key)` exactly when `key` matches neither
position of any pair. -/
theorem findItem_absent {key : α} {items : List (α × α)}
    (h : ∀ it ∈ items, key ≠ it.1 ∧ key ≠ it.2) :
    findItem key items = .error (.notFound key) := by
  have := @findItem_append_of_absent_left _ _ key items [] h
  rw [List.append_nil] at this
  rw [this]
  rfl

theorem findItem_ok_mem {key : α} {items : List (α × α)} {item : α × α}
    (h : findItem key items = .ok item) :
    item ∈ items ∧ (key = item.1 ∨ key = item.2) := by
  induction items with
  | nil => simp [findItem] at h
  | cons it rest ih =>
    unfold findItem at h
    by_cases hc : key = it.1 ∨ key = it.2
    · rw [if_pos hc] at h
      cases h
      exact ⟨by simp, hc⟩
    · rw [if_neg hc] at h
      obtain ⟨hmem, hmatch⟩ := ih h
      exact ⟨by simp [hmem], hmatch⟩

/-- Looking up either element of a fresh insertion: `__getitem__(key)` finds
`value` and `__getitem__(value)` finds `key`. -/
theorem lookup_after_setitem (key value : α) (items : List (α × α)) :
    getitem key (setitem key value items) = .ok (some value) ∧
    getitem value (setitem key value items) = .ok (some key) := by
  rw [setitem_eq_filter]
  have hkey : findItem key (items.filter (keeps key value) ++ [(key, value)]) =
      .ok (key, value) := by
    rw [findItem_append_of_absent_left
      (fun it hit => ⟨(mem_filter_keeps hit).1, (mem_filter_keeps hit).2.1⟩)]
    unfold findItem
    rw [if_pos (Or.inl rfl)]
  have hval : findItem value (items.filter (keeps key value) ++ [(key, value)]) =
      .ok (key, value) := by
    rw [findItem_append_of_absent_left
      (fun it hit => ⟨(mem_filter_keeps hit).2.2.1, (mem_filter_keeps hit).2.2.2⟩)]
    unfold findItem
    rw [if_pos (Or.inr rfl)]
  constructor
  · unfold getitem
    rw [hkey]
    simp [getValue]
  · unfold getitem
    rw [hval]
    by_cases hvk : value = key
    · simp [getValue, hvk]
    · simp [getValue, hvk]

/-- Loading a pair list whose elements are pairwise disjoint from each other
and from the accumulator appends it unchanged: no insertion evicts anything. -/
theorem foldl_setitem_of_distinct :
    ∀ (l acc : List (α × α)), Distinct (acc ++ l) →
    l.foldl (fun acc2 kv => setitem kv.1 kv.2 acc2) acc = acc ++ l := by
  intro l
  induction l with
  | nil =>
    intro acc _
    simp
  | cons kv rest ih =>
    intro acc hd
    rw [List.foldl_cons]
    have hcross := (List.pairwise_append.mp hd).2.2
    have hstep : setitem kv.1 kv.2 acc = acc ++ [kv] := by
      rw [setitem_eq_filter]
      have hall : acc.filter (keeps kv.1 kv.2) = acc := by
        rw [List.filter_eq_self]
        intro a ha
        rw [keeps_eq_true]
        have hdj := hcross a ha kv (by simp)
        unfold disjointPair at hdj
        unfold conflicts
        rintro (hc | hc | hc | hc) <;> tauto
      rw [hall]
    rw [hstep]
    have hd' : Distinct ((acc ++ [kv]) ++ rest) := by
      rw [List.append_assoc]
      exact hd
    rw [ih (acc ++ [kv]) hd']
    simp

/-- `copy()` of a well-formed structure reloads the very same pair list. -/
theorem copy_eq_self {items : List (α × α)} (h : Distinct items) :
    copy items = items := by
  unfold copy init loadIntoDict
  simp only [List.foldl_cons, List.foldl_nil]
  exact foldl_setitem_of_distinct items [] (by simpa using h)

/-- `update` with a single pair-list argument of one pair is a plain
`__setitem__` on the existing structure. -/
theorem update_single (kv : α × α) (items : List (α × α)) :
    update [[kv]] [] items = setitem kv.1 kv.2 items := by
  unfold update loadIntoDict
  simp

/-- A one-pair list is a reachable state: one insertion on the empty list. -/
theorem reachable_pair (a b : α) : Reachable [(a, b)] := by
  have h : setitem a b ([] : List (α × α)) = [(a, b)] := by
    rw [setitem_eq_filter]
    rfl
  rw [← h]
  exact Reachable.insert a b Reachable.empty

end TwoWayOrderedDict

open TwoWayOrderedDict

/-- Claim C1: for every reachable state and every `a`, `b`, `insert(a, b)`
first removes every existing pair in which `a` or `b` appears in either
position and then appends `(a, b)` at the end; consequently, after any
sequence of inserts on an initially empty structure, no element appears in
two pairs. -/
theorem claim_C1 {α : Type _} [DecidableEq α] (a b : α) (items : List (α × α))
    (h : Reachable items) :
    setitem a b items = items.filter (keeps a b) ++ [(a, b)] ∧
    Distinct (setitem a b items) :=
  ⟨setitem_eq_filter a b items, distinct_setitem a b (distinct_of_reachable h)⟩

/-- Witness for C1 at `a = 1`, `b = 2`, on the reachable state `[(3, 4)]`. -/
theorem claim_C1_witness :
    setitem (1 : Nat) 2 [(3, 4)] = [(3, 4), (1, 2)] ∧
    Distinct (setitem (1 : Nat) 2 [(3, 4)]) := by
  have h := claim_C1 1 2 [(3, 4)] (reachable_pair 3 4)
  exact ⟨h.1.trans (by rfl), h.2⟩

/-- Claim C2: for every structure state and every pair `(a, b)`, immediately
after `insert(a, b)` both `lookup(a)` returns `b` and `lookup(b)` returns
`a`. -/
theorem claim_C2 {α : Type _} [DecidableEq α] (a b : α) (items : List (α × α)) :
    getitem a (setitem a b items) = .ok (some b) ∧
    getitem b (setitem a b items) = .ok (some a) :=
  lookup_after_setitem a b items

/-- Claim C3: the concrete scenario: from empty, insert `("a", 1)` and
`("b", 2)`; then `lookup("a") = 1`, `lookup(2) = "b"`, `length() = 2`; after a
further `insert("a", 3)`: `lookup(3) = "a"`, `lookup(1)` fails with
`KeyError(1)` (the old pair was evicted), and `length() = 2`. -/
theorem claim_C3 :
    getitem (Elem.s "a")
        (setitem (Elem.s "b") (Elem.n 2) (setitem (Elem.s "a") (Elem.n 1) [])) =
      .ok (some (Elem.n 1)) ∧
    getitem (Elem.n 2)
        (setitem (Elem.s "b") (Elem.n 2) (setitem (Elem.s "a") (Elem.n 1) [])) =
      .ok (some (Elem.s "b")) ∧
    len (setitem (Elem.s "b") (Elem.n 2) (setitem (Elem.s "a") (Elem.n 1) [])) = 2 ∧
    getitem (Elem.n 3)
        (setitem (Elem.s "a") (Elem.n 3)
          (setitem (Elem.s "b") (Elem.n 2) (setitem (Elem.s "a") (Elem.n 1) []))) =
      .ok (some (Elem.s "a")) ∧
    getitem (Elem.n 1)
        (setitem (Elem.s "a") (Elem.n 3)
          (setitem (Elem.s "b") (Elem.n 2) (setitem (Elem.s "a") (Elem.n 1) []))) =
      .error (.notFound (Elem.n 1)) ∧
    len (setitem (Elem.s "a") (Elem.n 3)
        (setitem (Elem.s "b") (Elem.n 2) (setitem (Elem.s "a") (Elem.n 1) []))) = 2 := by
  have h1 : setitem (Elem.s "a") (Elem.n 1) ([] : List (Elem × Elem)) =
      [(Elem.s "a", Elem.n 1)] := by
    rw [setitem_eq_filter]
    rfl
  have h2 : setitem (Elem.s "b") (Elem.n 2) [(Elem.s "a", Elem.n 1)] =
      [(Elem.s "a", Elem.n 1), (Elem.s "b", Elem.n 2)] := by
    rw [setitem_eq_filter]
    rfl
  have h3 : setitem (Elem.s "a") (Elem.n 3)
      [(Elem.s "a", Elem.n 1), (Elem.s "b", Elem.n 2)] =
      [(Elem.s "b", Elem.n 2), (Elem.s "a", Elem.n 3)] := by
    rw [setitem_eq_filter]
    rfl
  rw [h1, h2, h3]
  exact ⟨rfl, rfl, rfl, rfl, rfl, rfl⟩

/-- Claim C4: for every state and every `x` matching neither position of any
pair, `lookup(x)`, `delete(x)` and `pop(x)` without a default all fail with
`KeyError(x)`; the failing computations produce no modified pair list (the
error is raised by `_find_item` before any mutation). -/
theorem claim_C4 {α : Type _} [DecidableEq α] (x : α) (items : List (α × α))
    (h : ∀ it ∈ items, x ≠ it.1 ∧ x ≠ it.2) :
    getitem x items = .error (.notFound x) ∧
    delitem x items = .error (.notFound x) ∧
    pop x none items = .error (.notFound x) := by
  have hf := findItem_absent h
  refine ⟨?_, ?_, ?_⟩
  · unfold getitem
    rw [hf]
  · unfold delitem
    rw [hf]
  · unfold pop
    rw [hf]

/-- Witness for C4: `x = 5` is absent from `[(1, 2)]`. -/
theorem claim_C4_witness :
    getitem (5 : Nat) [(1, 2)] = .error (.notFound 5) ∧
    delitem (5 : Nat) [(1, 2)] = .error (.notFound 5) ∧
    pop (5 : Nat) none [(1, 2)] = .error (.notFound 5) :=
  claim_C4 5 [(1, 2)] (by decide)

/-- Claim C5: `popitem()` on an empty structure (also right after `clear()`)
fails with the empty-dictionary `KeyError`; on a non-empty structure it
removes and returns the most recently appended pair, leaving all earlier
pairs unchanged in their order. -/
theorem claim_C5 {α : Type _} [DecidableEq α] (items : List (α × α)) (h : items ≠ []) :
    popitem ([] : List (α × α)) = .error .empty ∧
    popitem (clear items) = .error .empty ∧
    popitem items = .ok (items.getLast h, items.dropLast) ∧
    items.dropLast ++ [items.getLast h] = items := by
  refine ⟨rfl, rfl, ?_, List.dropLast_append_getLast h⟩
  unfold popitem
  rw [List.getLast?_eq_getLast _ h]

/-- Witness for C5 on the two-pair state `[(1, 2), (3, 4)]`. -/
theorem claim_C5_witness :
    popitem [((1 : Nat), (2 : Nat)), (3, 4)] = .ok ((3, 4), [(1, 2)]) := by
  have h := (claim_C5 [((1 : Nat), (2 : Nat)), (3, 4)] (by decide)).2.2.1
  exact h.trans (by rfl)

/-- Claim C6: `pop(x, default)`: when `x` appears in some pair (the pair
`_find_item` returns), `pop` removes that pair and returns the element paired
with `x`, whether or not a default was supplied; when `x` is absent and a
default was supplied, `pop` returns the default with the structure unchanged;
when `x` is absent and no default was supplied, `pop` fails with
`KeyError(x)`. -/
theorem claim_C6 {α : Type _} [DecidableEq α] (x d : α) (items : List (α × α)) :
    (∀ item, findItem x items = .ok item →
      pop x (some d) items = .ok (getValue x item, items.erase item) ∧
      pop x none items = .ok (getValue x item, items.erase item)) ∧
    ((∀ it ∈ items, x ≠ it.1 ∧ x ≠ it.2) →
      pop x (some d) items = .ok (some d, items) ∧
      pop x none items = .error (.notFound x)) := by
  constructor
  · intro item hit
    constructor
    · unfold pop
      rw [hit]
    · unfold pop
      rw [hit]
  · intro h
    have hf := findItem_absent h
    constructor
    · unfold pop
      rw [hf]
    · unfold pop
      rw [hf]

/-- Witness for C6: present key `1` in `[(1, 2)]`, and absent key `3` with and
without a supplied default. -/
theorem claim_C6_witness :
    pop (1 : Nat) (some 7) [(1, 2)] = .ok (some 2, []) ∧
    pop (3 : Nat) (some 7) [((1 : Nat), (2 : Nat))] = .ok (some 7, [(1, 2)]) ∧
    pop (3 : Nat) none [((1 : Nat), (2 : Nat))] = .error (.notFound 3) := by
  refine ⟨?_, ?_, ?_⟩
  · exact (((claim_C6 1 7 [(1, 2)]).1 (1, 2) (by rfl)).1).trans (by rfl)
  · exact ((claim_C6 3 7 [(1, 2)]).2 (by decide)).1
  · exact ((claim_C6 3 7 [(1, 2)]).2 (by decide)).2

/-- Claim C7: `update({"x": 1})` on a structure containing `("x", 9)` behaves
as a single `__setitem__` (the loading semantics of construction): it evicts
`("x", 9)` and appends `("x", 1)`, which ends up last in `items()`. -/
theorem claim_C7 (items : List (Elem × Elem)) (_h : (Elem.s "x", Elem.n 9) ∈ items) :
    update [[(Elem.s "x", Elem.n 1)]] [] items = setitem (Elem.s "x") (Elem.n 1) items ∧
    (Elem.s "x", Elem.n 9) ∉ update [[(Elem.s "x", Elem.n 1)]] [] items ∧
    (update [[(Elem.s "x", Elem.n 1)]] [] items).getLast? =
      some (Elem.s "x", Elem.n 1) := by
  have hu : update [[(Elem.s "x", Elem.n 1)]] [] items =
      setitem (Elem.s "x") (Elem.n 1) items := update_single _ items
  refine ⟨hu, ?_, ?_⟩
  · rw [hu, setitem_eq_filter]
    intro hmem
    rcases List.mem_append.mp hmem with hfil | hsing
    · exact (mem_filter_keeps hfil).1 rfl
    · exact absurd hsing (by decide)
  · rw [hu, setitem_eq_filter, List.getLast?_concat]

/-- Witness for C7 on the state `[("x", 9)]`. -/
theorem claim_C7_witness :
    update [[(Elem.s "x", Elem.n 1)]] [] [(Elem.s "x", Elem.n 9)] =
      [(Elem.s "x", Elem.n 1)] ∧
    (update [[(Elem.s "x", Elem.n 1)]] [] [(Elem.s "x", Elem.n 9)]).getLast? =
      some (Elem.s "x", Elem.n 1) := by
  have h := claim_C7 [(Elem.s "x", Elem.n 9)] (by simp)
  refine ⟨?_, h.2.2⟩
  rw [h.1, setitem_eq_filter]
  rfl

/-- Claim C8: for every reachable (well-formed) structure, `copy()` rebuilds a
structure whose pair list equals the original in both content and insertion
order.  Independence holds by construction: `copy` loads a fresh list through
`TwoWayOrderedDict(self._items)`, and in this pure embedding every mutation
returns a new list, never aliasing the original. -/
theorem claim_C8 {α : Type _} [DecidableEq α] (items : List (α × α))
    (h : Reachable items) :
    copy items = items :=
  copy_eq_self (distinct_of_reachable h)

/-- Witness for C8 on the reachable state `[(3, 4)]`. -/
theorem claim_C8_witness : copy [((3 : Nat), (4 : Nat))] = [(3, 4)] :=
  claim_C8 [(3, 4)] (reachable_pair 3 4)

/-- Claim C9: for every non-negative integer `s`, `get_time(s)` returns days,
hours, minutes and seconds with `hours < 24`, `minutes < 60`, `seconds < 60`
and `days*86400 + hours*3600 + minutes*60 + seconds = s`. -/
theorem claim_C9 (s : Nat) :
    (get_time s).hours < 24 ∧ (get_time s).minutes < 60 ∧
    (get_time s).seconds < 60 ∧
    (get_time s).days * 86400 + (get_time s).hours * 3600 +
      (get_time s).minutes * 60 + (get_time s).seconds = s := by
  have h1 : (get_time s).days = s / 86400 := rfl
  have h2 : (get_time s).hours = s % 86400 / 3600 := rfl
  have h3 : (get_time s).minutes = s % 86400 % 3600 / 60 := rfl
  have h4 : (get_time s).seconds = s % 86400 % 3600 % 60 := rfl
  rw [h1, h2, h3, h4]
  refine ⟨?_, ?_, ?_, ?_⟩ <;> omega

/-- Claim C10: `setdefault(x, default)` on an absent `x` inserts
`(x, default)` through the full eviction-on-insert `__setitem__`: any existing
pair containing `default` in either position is removed first (so the length
may stay unchanged instead of growing). -/
theorem claim_C10 {α : Type _} [DecidableEq α] (x d : α) (items : List (α × α))
    (h : ∀ it ∈ items, x ≠ it.1 ∧ x ≠ it.2) :
    setdefault x d items = (some d, setitem x d items) ∧
    (∀ p ∈ items, (d = p.1 ∨ d = p.2) → p ∉ setitem x d items) := by
  have hf := findItem_absent h
  constructor
  · unfold setdefault getitem
    rw [hf]
  · intro p hp hd
    rw [setitem_eq_filter]
    intro hmem
    rcases List.mem_append.mp hmem with hfil | hsing
    · have hk := mem_filter_keeps hfil
      tauto
    · simp only [List.mem_singleton] at hsing
      have hx := (h p hp).1
      rw [hsing] at hx
      exact hx rfl

/-- Witness for C10: `setdefault(1, 2)` on `[(2, 3)]` (key `1` absent) evicts
`(2, 3)` because it contains the default `2`, leaving the length at 1. -/
theorem claim_C10_witness :
    setdefault (1 : Nat) 2 [(2, 3)] = (some 2, [(1, 2)]) ∧
    len (setdefault (1 : Nat) 2 [(2, 3)]).2 = len [((2 : Nat), (3 : Nat))] := by
  have h := claim_C10 1 2 [(2, 3)] (by decide)
  constructor
  · exact h.1.trans (by rw [setitem_eq_filter]; rfl)
  · rw [h.1]
    unfold len
    rw [setitem_eq_filter]
    rfl

end YoutubeDLGui
